import Mathlib

/- Verification of the travel-aggregator aggregation pipeline: a shallow
embedding of the aggregation library (stringSimilarity, normalize, dedupe,
rank, filterByDateRange) and of the per-provider result collection done by
the search route, together with theorems checking the specified behaviour.

Modelling conventions:
* JavaScript numbers are modelled as exact rationals (ℚ); ISO timestamps
  are modelled by their epoch-millisecond value (what `new Date(s).getTime()`
  returns), so timestamp comparisons and differences are integer arithmetic.
  The luxon timezone conversion performed by `normalize` re-renders a
  timestamp string in another zone without changing the instant it denotes
  (and on parse failure keeps the original string), so at the instant level
  it is the identity and start/end times pass through `normalize` unchanged.
* Optional fields are `Option` values.  Where the code relies on JavaScript
  truthiness, a missing string, an empty string, a missing number and the
  number 0 all count as false; `jsStrTruthy`/`jsNumTruthy` model this.
  Where the code tests `!== undefined` (only `priceMin`), `Option.isSome`
  is used instead.
* The haversine helper `getDistance` and `Math.log10` evaluate
  floating-point transcendental functions; the development is parametric in
  them (`dist` and `log10` arguments).  Likewise the node:crypto sha256 hex
  digest used for identifiers is a parameter (`hash`): the repository code
  only concatenates, hashes, and truncates.
-/

namespace Aggregate

inductive HappenCategory where
  | event
  | exhibition
  | attraction
  | seminar
  | tour
  deriving DecidableEq, Inhabited

/-- The provider-item record (types.ts `ProviderItem`).  Optional fields are
`Option`; timestamps are epoch milliseconds; numeric fields are ℚ. -/
structure ProviderItem where
  externalId : String
  source : String
  title : String
  description : Option String
  category : List HappenCategory
  startTime : Option Int
  endTime : Option Int
  timezone : Option String
  venueName : Option String
  address : Option String
  city : Option String
  lat : Option ℚ
  lng : Option ℚ
  priceMin : Option ℚ
  priceMax : Option ℚ
  currency : Option String
  url : String
  imageUrl : Option String
  tags : Option (List String)
  isFamilyFriendly : Option Bool
  isIndoor : Option Bool
  language : Option String
  lastUpdated : Option Int
  popularity : Option ℚ
  attendeeCount : Option ℚ
  deriving DecidableEq, Inhabited

/-- types.ts `NormalizedItem extends ProviderItem`. -/
structure NormalizedItem extends ProviderItem where
  id : String
  normalizedTitle : String
  score : Option ℚ := none
  deriving DecidableEq, Inhabited

/-- JavaScript truthiness of an optional string: present and nonempty. -/
def jsStrTruthy : Option String → Bool
  | none => false
  | some s => decide (s ≠ "")

/-- JavaScript truthiness of an optional number: present and nonzero. -/
def jsNumTruthy : Option ℚ → Bool
  | none => false
  | some x => decide (x ≠ 0)

/-- ASCII whitespace as matched by JavaScript's trim and `\s`. -/
def isSpaceJS (c : Char) : Bool :=
  c == ' ' || c == '\t' || c == '\n' || c == '\r'

/-- A `\w` word character: ASCII letter, digit, or underscore. -/
def isWordChar (c : Char) : Bool :=
  c.isAlphanum || c == '_'

def jsToLower (s : List Char) : List Char := s.map Char.toLower

/-- `String.prototype.trim`: drop whitespace from both ends. -/
def jsTrim (s : List Char) : List Char :=
  ((s.dropWhile isSpaceJS).reverse.dropWhile isSpaceJS).reverse

/-- `replace(/\s+/g, ' ')`: each maximal whitespace run becomes one space. -/
def collapseWhitespace : List Char → List Char
  | [] => []
  | [c] => if isSpaceJS c then [' '] else [c]
  | c1 :: c2 :: cs =>
    if isSpaceJS c1 && isSpaceJS c2 then collapseWhitespace (c2 :: cs)
    else (if isSpaceJS c1 then ' ' else c1) :: collapseWhitespace (c2 :: cs)

/-- The normalized-title computation of `normalize`: lowercase, trim, strip
`[^\w\s]`, collapse whitespace runs to single spaces. -/
def normalizeTitle (title : String) : String :=
  let cs := jsTrim (jsToLower title.data)
  let cs := cs.filter (fun c => isWordChar c || isSpaceJS c)
  String.mk (collapseWhitespace cs)

/-- Identifier generation of `normalize`: first 16 hex characters of the
digest of `"<source>:<externalId>"`; `hash` stands for the sha256 hex
digest of node:crypto.  `substring(0, 16)` is the first 16 characters,
written here as `List.take 16` on the character data. -/
def mkId (hash : String → String) (source externalId : String) : String :=
  String.mk ((hash (source ++ ":" ++ externalId)).data.take 16)

/-- The per-item body of `normalize`'s map: attach the identifier and the
normalized title, restate the timezone, default `lastUpdated` to the time
of normalization (`now`).  Start/end instants pass through unchanged (see
the header comment on timezone conversion). -/
def normalizeItem (hash : String → String) (now : Int) (tz : String)
    (item : ProviderItem) : NormalizedItem :=
  { toProviderItem :=
      { item with
        timezone := some tz
        lastUpdated := some (item.lastUpdated.getD now) }
    id := mkId hash item.source item.externalId
    normalizedTitle := normalizeTitle item.title
    score := none }

/-- The category filter of `normalize`: keep everything when no filter is
given or the filter array is empty, otherwise keep items with at least one
matching tag. -/
def keepByFilter (filterCategories : Option (List HappenCategory))
    (item : ProviderItem) : Bool :=
  match filterCategories with
  | none => true
  | some f => if f.length == 0 then true else item.category.any (fun cat => f.contains cat)

/-- `normalize` from the aggregation library: category filter, then the
per-item normalization map. -/
def normalize (hash : String → String) (now : Int) (items : List ProviderItem)
    (tz : String) (filterCategories : Option (List HappenCategory)) :
    List NormalizedItem :=
  (items.filter (keepByFilter filterCategories)).map (normalizeItem hash now tz)

/-- The predicate of `filterByDateRange`: untimed attractions always pass;
timed items pass when `[start, end-or-start]` overlaps the window. -/
def inDateRange (startDate endDate : Int) (item : NormalizedItem) : Bool :=
  if item.startTime.isNone && item.category.contains .attraction then true
  else
    match item.startTime with
    | some itemStart =>
      let itemEnd := item.endTime.getD itemStart
      decide (itemStart ≤ endDate) && decide (itemEnd ≥ startDate)
    | none => false

/-- `filterByDateRange` (window endpoints already converted to epoch ms). -/
def filterByDateRange (items : List NormalizedItem) (startDate endDate : Int) :
    List NormalizedItem :=
  items.filter (inDateRange startDate endDate)

/-! ## Text similarity (stringSimilarity / levenshteinDistance) -/

/-- Inner loop of one row of the Levenshtein dynamic program.  `y` is the
current character of `str2` (row index `i`), the list argument walks `str1`
(column index `j`), `pd :: rest` is the previous row starting at column
`j - 1` (so `pd = m[i-1][j-1]` and `rest.head = m[i-1][j]`), and `left` is
the entry `m[i][j-1]` of the row being built. -/
def levNextRowAux (y : Char) : List Char → List Nat → Nat → List Nat
  | [], _, _ => []
  | _ :: _, [], _ => []
  | x :: xs, pd :: rest, left =>
    match rest with
    | [] => []
    | pj :: _ =>
      let cur := if x == y then pd else 1 + min pd (min left pj)
      cur :: levNextRowAux y xs rest cur

/-- One row step of the Levenshtein matrix: `m[i][0] = m[i-1][0] + 1 = i`,
then the recurrence of the inner loop. -/
def levNextRow (str1 : List Char) (prevRow : List Nat) (y : Char) : List Nat :=
  let first := prevRow.headD 0 + 1
  first :: levNextRowAux y str1 prevRow first

/-- `levenshteinDistance`: the matrix algorithm row by row; row 0 is
`[0, 1, …, str1.length]` and the answer is `m[str2.length][str1.length]`. -/
def levenshteinDistance (str1 str2 : List Char) : Nat :=
  let row0 := List.range (str1.length + 1)
  let lastRow := str2.foldl (levNextRow str1) row0
  lastRow.getLastD 0

/-- `stringSimilarity`: case-folded trimmed strings; equal strings score 1,
an empty side scores 0, otherwise `1 - editDistance / maxLen`. -/
def stringSimilarity (str1 str2 : String) : ℚ :=
  let s1 := jsTrim (jsToLower str1.data)
  let s2 := jsTrim (jsToLower str2.data)
  if s1 == s2 then 1
  else if s1.length == 0 || s2.length == 0 then 0
  else
    let maxLen := max s1.length s2.length
    1 - (levenshteinDistance s1 s2 : ℚ) / (maxLen : ℚ)

/-! ## Deduplication -/

/-- Time proximity check of `dedupe`: both items have a start time and the
absolute difference is under 30 minutes. -/
def timeSimilar (item uniqueItem : NormalizedItem) : Bool :=
  match item.startTime, uniqueItem.startTime with
  | some t1, some t2 => decide ((t1 - t2).natAbs < 30 * 60 * 1000)
  | _, _ => false

/-- Location proximity check of `dedupe`: both items have truthy (nonzero)
coordinates and the distance is under 200 meters. -/
def locationSimilar (dist : ℚ → ℚ → ℚ → ℚ → ℚ)
    (item uniqueItem : NormalizedItem) : Bool :=
  if jsNumTruthy item.lat && jsNumTruthy item.lng &&
      jsNumTruthy uniqueItem.lat && jsNumTruthy uniqueItem.lng then
    decide (dist (item.lat.getD 0) (item.lng.getD 0)
      (uniqueItem.lat.getD 0) (uniqueItem.lng.getD 0) < 200)
  else false

/-- The duplicate test of `dedupe`. -/
def isDuplicate (dist : ℚ → ℚ → ℚ → ℚ → ℚ)
    (item uniqueItem : NormalizedItem) : Bool :=
  let titleSimilarity := stringSimilarity item.normalizedTitle uniqueItem.normalizedTitle
  (decide (titleSimilarity > 9/10) && timeSimilar item uniqueItem) ||
  (decide (titleSimilarity > 4/5) && locationSimilar dist item uniqueItem &&
    timeSimilar item uniqueItem)

/-- The replacement test of `dedupe` ("the new item has more information"),
including the JavaScript truthiness of each guard. -/
def shouldReplace (item uniqueItem : NormalizedItem) : Bool :=
  (!(jsStrTruthy uniqueItem.description) && jsStrTruthy item.description) ||
  (!(jsStrTruthy uniqueItem.imageUrl) && jsStrTruthy item.imageUrl) ||
  (jsNumTruthy item.popularity &&
    (!(jsNumTruthy uniqueItem.popularity) ||
      decide (item.popularity.getD 0 > uniqueItem.popularity.getD 0)))

/-- Index of the first match of a predicate (0-based), `none` if no match. -/
def firstMatchIdx {α : Type} (p : α → Bool) : List α → Option Nat
  | [] => none
  | a :: t => if p a then some 0 else (firstMatchIdx p t).map (fun i => i + 1)

/-- `Array.prototype.indexOf`, on a list: index of the first element equal
to `x` (`none` standing for -1). -/
def jsIndexOf {α : Type} [DecidableEq α] (l : List α) (x : α) : Option Nat :=
  firstMatchIdx (fun y => decide (y = x)) l

/-- One iteration of the outer loop of `dedupe`: scan the kept
representatives, stop at the first duplicate (replacing it in place via
`indexOf` when the incoming item has more information), else append. -/
def dedupeStep (dist : ℚ → ℚ → ℚ → ℚ → ℚ)
    (uniqueItems : List NormalizedItem) (item : NormalizedItem) :
    List NormalizedItem :=
  match uniqueItems.find? (fun u => isDuplicate dist item u) with
  | some u =>
    if shouldReplace item u then
      match jsIndexOf uniqueItems u with
      | some index => uniqueItems.set index { item with id := u.id }
      | none => uniqueItems
    else uniqueItems
  | none => uniqueItems ++ [item]

/-- `dedupe` from the aggregation library. -/
def dedupe (dist : ℚ → ℚ → ℚ → ℚ → ℚ) (items : List NormalizedItem) :
    List NormalizedItem :=
  items.foldl (dedupeStep dist) []

/-! ## Ranking -/

inductive SortStrategy where
  | recommended
  | soonest
  | closest
  | price
  deriving DecidableEq, Inhabited

/-- The params object of `rank`; `sortBy` defaults to `recommended`. -/
structure RankParams where
  center : Option (ℚ × ℚ) := none
  sortBy : Option SortStrategy := none
  deriving DecidableEq, Inhabited

/-- `soonest` branch: `1 / (1 + timeUntil)` in milliseconds, 0 without a
start time.  Caveat of the exact-rational model: at `timeUntil = -1` the
program divides by zero and JS float division yields `Infinity` (a maximal
score), while `1 / 0 = 0` in ℚ — the one input where this value and the
program's differ.  Theorems about the score's value therefore exclude
`t - now = -1`. -/
def soonestScore (now : Int) (item : NormalizedItem) : ℚ :=
  match item.startTime with
  | some t => 1 / (1 + ((t - now : Int) : ℚ))
  | none => 0

/-- `closest` branch: `1 / (1 + distance)` for truthy coordinates, else 0. -/
def closestScore (dist : ℚ → ℚ → ℚ → ℚ → ℚ) (center : ℚ × ℚ)
    (item : NormalizedItem) : ℚ :=
  if jsNumTruthy item.lat && jsNumTruthy item.lng then
    1 / (1 + dist center.1 center.2 (item.lat.getD 0) (item.lng.getD 0))
  else 0

/-- `price` branch: `1 / (1 + priceMin)`, and 1 when no price is defined. -/
def priceScore (item : NormalizedItem) : ℚ :=
  match item.priceMin with
  | some p => 1 / (1 + p)
  | none => 1

/-- Recommended: popularity factor (`popularity * 30`). -/
def popularityTerm (item : NormalizedItem) : ℚ :=
  if jsNumTruthy item.popularity then item.popularity.getD 0 * 30 else 0

/-- Recommended: attendee factor `min(10, log10(attendeeCount + 1) * 2)`. -/
def attendeeTerm (log10 : ℚ → ℚ) (item : NormalizedItem) : ℚ :=
  if jsNumTruthy item.attendeeCount then
    min 10 (log10 (item.attendeeCount.getD 0 + 1) * 2)
  else 0

/-- Recommended: recency factor `max(0, 20 - hoursSinceUpdate / 24)`. -/
def recencyTerm (now : Int) (item : NormalizedItem) : ℚ :=
  match item.lastUpdated with
  | some lu =>
    let hoursSinceUpdate : ℚ := ((now - lu : Int) : ℚ) / (1000 * 60 * 60)
    max 0 (20 - hoursSinceUpdate / 24)
  | none => 0

/-- Recommended: distance factor `max(0, 20 - distance/1000)` when a center
is given and the item has truthy coordinates. -/
def proximityTerm (dist : ℚ → ℚ → ℚ → ℚ → ℚ) (center : Option (ℚ × ℚ))
    (item : NormalizedItem) : ℚ :=
  match center with
  | some c =>
    if jsNumTruthy item.lat && jsNumTruthy item.lng then
      max 0 (20 - dist c.1 c.2 (item.lat.getD 0) (item.lng.getD 0) / 1000)
    else 0
  | none => 0

/-- Recommended: +3 per present description/image/venue/address and per
defined minimum price. -/
def completenessTerm (item : NormalizedItem) : ℚ :=
  (if jsStrTruthy item.description then 3 else 0) +
  (if jsStrTruthy item.imageUrl then 3 else 0) +
  (if jsStrTruthy item.venueName then 3 else 0) +
  (if jsStrTruthy item.address then 3 else 0) +
  (if item.priceMin.isSome then 3 else 0)

/-- The categoryWeights table. -/
def categoryWeight : HappenCategory → ℚ
  | .event => 1
  | .exhibition => 6/5
  | .attraction => 11/10
  | .seminar => 13/10
  | .tour => 6/5

/-- Recommended: `min(10, categoryBoost * 2)` with the summed weights. -/
def categoryTerm (item : NormalizedItem) : ℚ :=
  min 10 ((item.category.foldl (fun acc cat => acc + categoryWeight cat) 0) * 2)

/-- Recommended: time relevance (+5 today, +3 within 3 days, +1 within 7). -/
def urgencyTerm (now : Int) (item : NormalizedItem) : ℚ :=
  match item.startTime with
  | some t =>
    let daysUntil : ℚ := ((t - now : Int) : ℚ) / (1000 * 60 * 60 * 24)
    if daysUntil < 1 then 5
    else if daysUntil < 3 then 3
    else if daysUntil < 7 then 1
    else 0
  | none => 0

/-- The recommended (default) weighted score. -/
def recommendedScore (dist : ℚ → ℚ → ℚ → ℚ → ℚ) (log10 : ℚ → ℚ) (now : Int)
    (center : Option (ℚ × ℚ)) (item : NormalizedItem) : ℚ :=
  popularityTerm item + attendeeTerm log10 item + recencyTerm now item +
  proximityTerm dist center item + completenessTerm item + categoryTerm item +
  urgencyTerm now item

/-- The map body of `rank`: select the branch from `sortBy` (defaulted to
`recommended`) exactly as the if/else-if chain of the source does — note
the `closest` branch also requires a (truthy) center — and attach the
score. -/
def scoreItem (dist : ℚ → ℚ → ℚ → ℚ → ℚ) (log10 : ℚ → ℚ) (now : Int)
    (p : RankParams) (item : NormalizedItem) : NormalizedItem :=
  let sortBy := p.sortBy.getD .recommended
  let score : ℚ :=
    if sortBy = .soonest then soonestScore now item
    else if sortBy = .closest ∧ p.center.isSome then
      closestScore dist (p.center.getD (0, 0)) item
    else if sortBy = .price then priceScore item
    else recommendedScore dist log10 now p.center item
  { item with score := some score }

/-- The sort order of `rank`'s final `sort((a, b) => (b.score||0) -
(a.score||0))`: descending by score-or-0. -/
def scoreLE (a b : NormalizedItem) : Prop :=
  b.score.getD 0 ≤ a.score.getD 0

instance : DecidableRel scoreLE := fun a b =>
  inferInstanceAs (Decidable (b.score.getD 0 ≤ a.score.getD 0))

instance : IsTotal NormalizedItem scoreLE :=
  ⟨fun a b => le_total (b.score.getD 0) (a.score.getD 0)⟩

instance : IsTrans NormalizedItem scoreLE :=
  ⟨fun _ _ _ h1 h2 => le_trans h2 h1⟩

/-- `rank` from the aggregation library.  JavaScript's `Array.sort` is a
stable sort for the comparator's total preorder, and any stable sort agrees
pointwise with insertion sort for the same preorder, so insertion sort by
`scoreLE` is the faithful embedding of the final sort. -/
def rank (dist : ℚ → ℚ → ℚ → ℚ → ℚ) (log10 : ℚ → ℚ) (now : Int)
    (items : List NormalizedItem) (p : RankParams) : List NormalizedItem :=
  List.insertionSort scoreLE (items.map (scoreItem dist log10 now p))

/-! ## Per-provider result collection (search route) -/

/-- The `Promise.allSettled` + `flatMap` collection step of the search
route: each provider outcome is either a fulfilled list of raw items or a
rejection; fulfilled lists are concatenated in provider registration order
and a rejected provider contributes `[]`. -/
def collectSettled (settled : List (Except String (List ProviderItem))) :
    List ProviderItem :=
  settled.flatMap fun result =>
    match result with
    | .ok items => items
    | .error _ => []

/-- Spec-side description: the union (concatenation in registration order)
of the successful providers' item lists. -/
def successfulUnion (settled : List (Except String (List ProviderItem))) :
    List ProviderItem :=
  (settled.filterMap Except.toOption).flatten

/-! ## Spec-side definitions (written from the claims' wording, to be
compared with the source embeddings above) -/

/-- Spec wording: both items have start times under 30 minutes apart. -/
def timeProximate (a b : NormalizedItem) : Prop :=
  ∃ t1 t2, a.startTime = some t1 ∧ b.startTime = some t2 ∧ |t1 - t2| < 1800000

/-- Spec wording (amended by JavaScript truthiness): both items carry
nonzero coordinates under 200 meters apart. -/
def locationProximate (dist : ℚ → ℚ → ℚ → ℚ → ℚ) (a b : NormalizedItem) : Prop :=
  ∃ la1 ln1 la2 ln2,
    a.lat = some la1 ∧ a.lng = some ln1 ∧ b.lat = some la2 ∧ b.lng = some ln2 ∧
    la1 ≠ 0 ∧ ln1 ≠ 0 ∧ la2 ≠ 0 ∧ ln2 ≠ 0 ∧ dist la1 ln1 la2 ln2 < 200

/-- Spec wording: a present (nonempty, i.e. truthy) optional string. -/
def strPresent (o : Option String) : Prop := ∃ s, o = some s ∧ s ≠ ""

/-- Spec wording: a present (nonzero, i.e. truthy) optional number. -/
def numPresent (o : Option ℚ) : Prop := ∃ x, o = some x ∧ x ≠ 0

/-- Spec wording of the duplicate rule: (similarity > 0.90 and
time-proximate) or (similarity > 0.80 and location-proximate and
time-proximate). -/
def duplicateRule (dist : ℚ → ℚ → ℚ → ℚ → ℚ) (incoming rep : NormalizedItem) :
    Prop :=
  (stringSimilarity incoming.normalizedTitle rep.normalizedTitle > 9/10 ∧
    timeProximate incoming rep) ∨
  (stringSimilarity incoming.normalizedTitle rep.normalizedTitle > 4/5 ∧
    locationProximate dist incoming rep ∧ timeProximate incoming rep)

/-- Spec wording of the replacement rule: the representative lacks a
description and the incoming item has one, or likewise for the image, or
the incoming item has a popularity score exceeding the representative's
(or the representative has none). -/
def replacementRule (incoming rep : NormalizedItem) : Prop :=
  (¬ strPresent rep.description ∧ strPresent incoming.description) ∨
  (¬ strPresent rep.imageUrl ∧ strPresent incoming.imageUrl) ∨
  (numPresent incoming.popularity ∧
    (¬ numPresent rep.popularity ∨
      incoming.popularity.getD 0 > rep.popularity.getD 0))

/-- Spec-side dedupe step: the incoming item is compared against the kept
representatives in order; the first matching representative wins, and on a
match the incoming item replaces that representative in place (keeping the
representative's identifier) exactly when it improves information
completeness; otherwise the representative is unchanged; with no match the
incoming item is appended. -/
def dedupeSpecStep (dist : ℚ → ℚ → ℚ → ℚ → ℚ)
    (kept : List NormalizedItem) (incoming : NormalizedItem) :
    List NormalizedItem :=
  match firstMatchIdx (fun rep => isDuplicate dist incoming rep) kept with
  | some i =>
    match kept[i]? with
    | some rep =>
      if shouldReplace incoming rep then kept.set i { incoming with id := rep.id }
      else kept
    | none => kept
  | none => kept ++ [incoming]

/-- Spec-side dedupe: fold the spec-side step over the input. -/
def dedupeSpec (dist : ℚ → ℚ → ℚ → ℚ → ℚ) (items : List NormalizedItem) :
    List NormalizedItem :=
  items.foldl (dedupeSpecStep dist) []

/-- Claim-literal location proximity: both items *carry* coordinates (any
values, including 0) under 200 meters apart. -/
def locationCloseClaim (dist : ℚ → ℚ → ℚ → ℚ → ℚ) (a b : NormalizedItem) : Bool :=
  a.lat.isSome && a.lng.isSome && b.lat.isSome && b.lng.isSome &&
  decide (dist (a.lat.getD 0) (a.lng.getD 0) (b.lat.getD 0) (b.lng.getD 0) < 200)

/-- Claim-literal duplicate rule, with carried (not necessarily truthy)
coordinates. -/
def isDuplicateClaim (dist : ℚ → ℚ → ℚ → ℚ → ℚ)
    (incoming rep : NormalizedItem) : Bool :=
  (decide (stringSimilarity incoming.normalizedTitle rep.normalizedTitle > 9/10) &&
    timeSimilar incoming rep) ||
  (decide (stringSimilarity incoming.normalizedTitle rep.normalizedTitle > 4/5) &&
    locationCloseClaim dist incoming rep && timeSimilar incoming rep)

/-- Claim-literal replacement rule, with "has a description/image/score"
read as field presence. -/
def shouldReplaceClaim (incoming rep : NormalizedItem) : Bool :=
  (rep.description.isNone && incoming.description.isSome) ||
  (rep.imageUrl.isNone && incoming.imageUrl.isSome) ||
  (incoming.popularity.isSome && (rep.popularity.isNone ||
    decide (incoming.popularity.getD 0 > rep.popularity.getD 0)))

/-- Dedupe as the claim literally states it (field presence instead of
JavaScript truthiness). -/
def dedupeClaimStep (dist : ℚ → ℚ → ℚ → ℚ → ℚ)
    (kept : List NormalizedItem) (incoming : NormalizedItem) :
    List NormalizedItem :=
  match firstMatchIdx (fun rep => isDuplicateClaim dist incoming rep) kept with
  | some i =>
    match kept[i]? with
    | some rep =>
      if shouldReplaceClaim incoming rep then
        kept.set i { incoming with id := rep.id }
      else kept
    | none => kept
  | none => kept ++ [incoming]

def dedupeClaim (dist : ℚ → ℚ → ℚ → ℚ → ℚ) (items : List NormalizedItem) :
    List NormalizedItem :=
  items.foldl (dedupeClaimStep dist) []

/-- Spec wording of the date-range retention rule. -/
def retainRule (startDate endDate : Int) (item : NormalizedItem) : Prop :=
  (item.startTime = none ∧ HappenCategory.attraction ∈ item.category) ∨
  (∃ ts, item.startTime = some ts ∧ ts ≤ endDate ∧ item.endTime.getD ts ≥ startDate)

/-- Amended spec wording of the category-filter survival rule: no filter,
or an empty filter, or some tag of the item belongs to the filter. -/
def surviveRule (filterCategories : Option (List HappenCategory))
    (item : ProviderItem) : Bool :=
  match filterCategories with
  | none => true
  | some f => decide (f = []) || decide (∃ c ∈ item.category, c ∈ f)

/-! ## Concrete inputs for examples, counterexamples and witnesses -/

/-- A provider item with every optional field absent. -/
def baseProvider : ProviderItem :=
  { externalId := "x"
    source := "src"
    title := "t"
    description := none
    category := []
    startTime := none
    endTime := none
    timezone := none
    venueName := none
    address := none
    city := none
    lat := none
    lng := none
    priceMin := none
    priceMax := none
    currency := none
    url := "u"
    imageUrl := none
    tags := none
    isFamilyFriendly := none
    isIndoor := none
    language := none
    lastUpdated := none
    popularity := none
    attendeeCount := none }

/-- A normalized item with every optional field absent. -/
def baseItem : NormalizedItem :=
  { toProviderItem := baseProvider
    id := "id0"
    normalizedTitle := "t"
    score := none }

/-- A stand-in digest function for concrete examples (the development is
parametric in the digest). -/
def hid : String → String := fun s => s

/-- A stand-in distance function for concrete examples. -/
def dist0 : ℚ → ℚ → ℚ → ℚ → ℚ := fun _ _ _ _ => 0

/-- A stand-in log10 function for concrete examples. -/
def log0 : ℚ → ℚ := fun _ => 0

/-! ## Helper lemmas -/

theorem find?_none_firstMatchIdx {α : Type} (p : α → Bool) :
    ∀ l : List α, l.find? p = none → firstMatchIdx p l = none := by
  intro l
  induction l with
  | nil => intro _; rfl
  | cons a t ih =>
    intro h
    cases hpa : p a with
    | true => simp [List.find?_cons, hpa] at h
    | false =>
      have h' : t.find? p = none := by simpa [List.find?_cons, hpa] using h
      simp [firstMatchIdx, hpa, ih h']

theorem find?_some_firstMatchIdx {α : Type} [DecidableEq α] (p : α → Bool) :
    ∀ (l : List α) (u : α), l.find? p = some u →
      ∃ i, firstMatchIdx p l = some i ∧ jsIndexOf l u = some i ∧
        l[i]? = some u ∧ p u = true := by
  intro l
  induction l with
  | nil => intro u h; simp [List.find?] at h
  | cons a t ih =>
    intro u h
    cases hpa : p a with
    | true =>
      have hau : a = u := by simpa [List.find?_cons, hpa] using h
      subst hau
      exact ⟨0, by simp [firstMatchIdx, hpa],
        by simp [jsIndexOf, firstMatchIdx], by simp, hpa⟩
    | false =>
      have h' : t.find? p = some u := by simpa [List.find?_cons, hpa] using h
      obtain ⟨i, h1, h2, h3, h4⟩ := ih u h'
      have hau : ¬ (a = u) := by
        intro he; rw [he] at hpa; rw [hpa] at h4; exact Bool.false_ne_true h4
      refine ⟨i + 1, ?_, ?_, ?_, h4⟩
      · simp [firstMatchIdx, hpa, h1]
      · simp [jsIndexOf, firstMatchIdx, hau]
        simpa [jsIndexOf] using h2
      · simpa using h3

theorem dedupeStep_eq_specStep (dist : ℚ → ℚ → ℚ → ℚ → ℚ)
    (acc : List NormalizedItem) (item : NormalizedItem) :
    dedupeStep dist acc item = dedupeSpecStep dist acc item := by
  unfold dedupeStep dedupeSpecStep
  cases hf : acc.find? (fun u => isDuplicate dist item u) with
  | none => rw [find?_none_firstMatchIdx _ _ hf]
  | some u =>
    obtain ⟨i, h1, h2, h3, _⟩ :=
      find?_some_firstMatchIdx (fun u => isDuplicate dist item u) acc u hf
    rw [h1]
    dsimp only
    rw [h2, h3]

theorem dedupe_eq_dedupeSpec (dist : ℚ → ℚ → ℚ → ℚ → ℚ)
    (items : List NormalizedItem) : dedupe dist items = dedupeSpec dist items := by
  unfold dedupe dedupeSpec
  have hstep : dedupeStep dist = dedupeSpecStep dist :=
    funext fun acc => funext fun item => dedupeStep_eq_specStep dist acc item
  rw [hstep]

theorem filter_orderedInsert (v : ℚ) (a : NormalizedItem) :
    ∀ l : List NormalizedItem,
      (l.orderedInsert scoreLE a).filter (fun x => decide (x.score.getD 0 = v)) =
        if a.score.getD 0 = v then
          a :: l.filter (fun x => decide (x.score.getD 0 = v))
        else l.filter (fun x => decide (x.score.getD 0 = v)) := by
  intro l
  induction l with
  | nil =>
    by_cases hv : a.score.getD 0 = v <;>
      simp [List.orderedInsert, List.filter_cons, hv]
  | cons b t ih =>
    by_cases hr : scoreLE a b
    · by_cases hav : a.score.getD 0 = v <;>
        simp [List.orderedInsert, hr, List.filter_cons, hav]
    · have hlt : a.score.getD 0 < b.score.getD 0 := not_le.mp hr
      by_cases hav : a.score.getD 0 = v
      · have hbv : ¬ (b.score.getD 0 = v) := fun hb =>
          ne_of_lt hlt (hav.trans hb.symm)
        simp [List.orderedInsert, hr, List.filter_cons, hav, hbv, ih]
      · by_cases hbv : b.score.getD 0 = v <;>
          simp [List.orderedInsert, hr, List.filter_cons, hav, hbv, ih]

theorem filter_insertionSort (v : ℚ) :
    ∀ l : List NormalizedItem,
      (List.insertionSort scoreLE l).filter (fun x => decide (x.score.getD 0 = v)) =
        l.filter (fun x => decide (x.score.getD 0 = v)) := by
  intro l
  induction l with
  | nil => rfl
  | cons a t ih =>
    by_cases hv : a.score.getD 0 = v <;>
      simp [List.insertionSort, filter_orderedInsert, hv, ih, List.filter_cons]

theorem jsStrTruthy_iff (o : Option String) :
    jsStrTruthy o = true ↔ strPresent o := by
  cases o <;> simp [jsStrTruthy, strPresent]

theorem jsNumTruthy_iff (o : Option ℚ) :
    jsNumTruthy o = true ↔ numPresent o := by
  cases o <;> simp [jsNumTruthy, numPresent]

theorem timeSimilar_iff (a b : NormalizedItem) :
    timeSimilar a b = true ↔ timeProximate a b := by
  unfold timeSimilar timeProximate
  cases ha : a.startTime with
  | none => simp [ha]
  | some t1 =>
    cases hb : b.startTime with
    | none => simp [ha, hb]
    | some t2 =>
      simp only [ha, hb, decide_eq_true_eq, Option.some.injEq]
      constructor
      · intro h
        exact ⟨t1, t2, rfl, rfl, by rw [Int.abs_eq_natAbs]; omega⟩
      · rintro ⟨t1', t2', rfl, rfl, h⟩
        rw [Int.abs_eq_natAbs] at h; omega

theorem locationSimilar_iff (dist : ℚ → ℚ → ℚ → ℚ → ℚ)
    (a b : NormalizedItem) :
    locationSimilar dist a b = true ↔ locationProximate dist a b := by
  unfold locationSimilar locationProximate jsNumTruthy
  cases ha : a.lat <;> cases hb : a.lng <;> cases hc : b.lat <;> cases hd : b.lng <;>
    (simp [ha, hb, hc, hd]; try tauto)

theorem isDuplicate_iff (dist : ℚ → ℚ → ℚ → ℚ → ℚ)
    (incoming rep : NormalizedItem) :
    isDuplicate dist incoming rep = true ↔ duplicateRule dist incoming rep := by
  unfold isDuplicate duplicateRule
  simp [Bool.or_eq_true, Bool.and_eq_true, decide_eq_true_eq,
    timeSimilar_iff, locationSimilar_iff]
  tauto

theorem shouldReplace_iff (incoming rep : NormalizedItem) :
    shouldReplace incoming rep = true ↔ replacementRule incoming rep := by
  unfold shouldReplace replacementRule
  simp [Bool.or_eq_true, Bool.and_eq_true, Bool.not_eq_true',
    decide_eq_true_eq, ← jsStrTruthy_iff, ← jsNumTruthy_iff,
    Bool.not_eq_true]
  tauto

theorem inDateRange_iff (s e : Int) (x : NormalizedItem) :
    inDateRange s e x = true ↔ retainRule s e x := by
  unfold inDateRange retainRule
  cases hst : x.startTime with
  | none =>
    simp only [hst, Option.isNone_none, Bool.true_and]
    by_cases hat : HappenCategory.attraction ∈ x.category
    · simp [hat, List.elem_iff]
    · simp [hat, List.elem_iff]
  | some ts =>
    simp [hst, Bool.and_eq_true, decide_eq_true_eq, ge_iff_le, and_assoc]

/-! ## Claim theorems -/

/-- The spec example item for the date filter: start 2025-06-10T10:00:00Z
(epoch ms 1749549600000), no end time, category `[event]`. -/
def c3Event : NormalizedItem :=
  { baseItem with startTime := some 1749549600000, category := [.event], id := "ev" }

/-- An untimed attraction. -/
def c3Attraction : NormalizedItem :=
  { baseItem with category := [.attraction], id := "at" }

/-- C3: for every item list and inclusive window, `filterByDateRange`
retains an item iff it has no start time and is tagged attraction, or it
has a start time with item start ≤ window end and item end (defaulting to
the start) ≥ window start; the spec's event example is retained for the
2025-06-10 window, excluded for the 2025-06-11/12 window, and the untimed
attraction is retained under every window. -/
theorem filterByDateRange_characterization (items : List NormalizedItem)
    (startDate endDate : Int) :
    (∀ x, x ∈ filterByDateRange items startDate endDate ↔
      x ∈ items ∧ retainRule startDate endDate x)
  ∧ filterByDateRange [c3Event] 1749513600000 1749599999000 = [c3Event]
  ∧ filterByDateRange [c3Event] 1749600000000 1749686400000 = []
  ∧ ∀ s e : Int, filterByDateRange [c3Attraction] s e = [c3Attraction] := by
  refine ⟨?_, rfl, rfl, fun s e => rfl⟩
  intro x
  rw [filterByDateRange, List.mem_filter, inDateRange_iff]

/-- C4: the search route's combined result is the concatenation, in
provider registration order, of the successful providers' item lists; a
rejected provider contributes zero items and prevents nothing; with three
providers of which the middle one throws, the result is the union of the
other two. -/
theorem collectSettled_union
    (settled : List (Except String (List ProviderItem))) :
    collectSettled settled = successfulUnion settled
  ∧ ∀ (l1 l2 : List ProviderItem) (e : String),
      collectSettled [Except.ok l1, Except.error e, Except.ok l2] = l1 ++ l2 := by
  constructor
  · induction settled with
    | nil => rfl
    | cons a t ih =>
      cases a <;>
        simp [collectSettled, successfulUnion, Except.toOption] at ih ⊢ <;>
        exact ih
  · intro l1 l2 e
    simp [collectSettled]

/-- C5: every identifier assigned by `normalize` is the first 16 hex
characters of the digest of `"<source>:<externalId>"`, and it depends on
(source, externalId) only: normalizing raw items agreeing on those two
fields — at any time, target timezone, and with arbitrary other fields —
yields the same identifier. -/
theorem normalize_id_pure (hash : String → String) (now now' : Int)
    (tz tz' : String) (fc : Option (List HappenCategory))
    (items : List ProviderItem) :
    (∀ x ∈ normalize hash now items tz fc,
      x.id = mkId hash x.source x.externalId)
  ∧ ∀ r r' : ProviderItem, r.source = r'.source →
      r.externalId = r'.externalId →
      (normalizeItem hash now tz r).id = (normalizeItem hash now' tz' r').id := by
  constructor
  · intro x hx
    rw [normalize] at hx
    obtain ⟨r, _, rfl⟩ := List.mem_map.mp hx
    rfl
  · intro r r' hs he
    show mkId hash r.source r.externalId = mkId hash r'.source r'.externalId
    rw [hs, he]

/-- Two raw items agreeing only on (source, externalId). -/
def c5RawA : ProviderItem :=
  { baseProvider with
    source := "eventbrite"
    externalId := "E1"
    title := "Old title"
    popularity := some (1/2) }

def c5RawB : ProviderItem :=
  { baseProvider with
    source := "eventbrite"
    externalId := "E1"
    title := "New title"
    description := some "d"
    lat := some 1
    startTime := some 123 }

theorem normalize_id_pure_witness :
    (normalizeItem hid 0 "UTC" c5RawA).id =
      (normalizeItem hid 99 "Asia/Tokyo" c5RawB).id :=
  (normalize_id_pure hid 0 99 "UTC" "Asia/Tokyo" none []).2 c5RawA c5RawB rfl rfl

/-- An event item used for the category-filter claims. -/
def c6Raw : ProviderItem :=
  { baseProvider with category := [.event], externalId := "c6" }

/-- C6 counterexample: with the empty accepted-category set specified, the
claim's survival condition (filter unspecified, or some tag in the filter)
is false for an event item, yet `normalize` keeps the item. -/
theorem normalize_emptyFilter_cex :
    (normalize hid 0 [c6Raw] "UTC" (some [])).length = 1
  ∧ ¬ (some ([] : List HappenCategory) = none ∨
        ∃ c ∈ c6Raw.category, c ∈ ([] : List HappenCategory)) :=
  ⟨rfl, by simp⟩

/-- C6 amended: an item survives the category filter iff no filter is
specified, the specified filter is empty, or at least one of its category
tags belongs to the filter; survivors keep input order (the output is a
filter of the input followed by the order-preserving normalization map),
and the filtered output's identifiers form a subset of the unfiltered
output's identifiers. -/
theorem normalize_categoryFilter (hash : String → String) (now : Int)
    (tz : String) (items : List ProviderItem)
    (fc : Option (List HappenCategory)) :
    normalize hash now items tz fc =
      (items.filter (surviveRule fc)).map (normalizeItem hash now tz)
  ∧ ∀ x ∈ normalize hash now items tz fc,
      x.id ∈ (normalize hash now items tz none).map (fun y => y.id) := by
  constructor
  · unfold normalize
    congr 1
    apply List.filter_congr
    intro r _
    cases fc with
    | none => rfl
    | some f =>
      cases f with
      | nil => rfl
      | cons c cs =>
        show r.category.any (fun cat => (c :: cs).contains cat) = _
        simp only [surviveRule]
        by_cases h : ∃ x ∈ r.category, x ∈ c :: cs
        · rw [decide_eq_true h, Bool.or_true]
          obtain ⟨x, hx, hmem⟩ := h
          exact List.any_eq_true.mpr ⟨x, hx, List.elem_iff.mpr hmem⟩
        · rw [decide_eq_false h, Bool.or_false,
            decide_eq_false (by simp : ¬((c :: cs) = ([] : List HappenCategory)))]
          rcases hc : r.category.any (fun cat => (c :: cs).contains cat) with _ | _
          · rfl
          · obtain ⟨x, hx, hmem⟩ := List.any_eq_true.mp hc
            exact absurd ⟨x, hx, List.elem_iff.mp hmem⟩ h
  · intro x hx
    rw [normalize] at hx
    obtain ⟨r, hr, rfl⟩ := List.mem_map.mp hx
    have hri : r ∈ items := List.mem_of_mem_filter hr
    have hfe : items.filter (keepByFilter none) = items := by
      have : keepByFilter none = fun _ => true := funext fun _ => rfl
      rw [this, List.filter_true]
    rw [normalize, hfe]
    exact List.mem_map_of_mem _ (List.mem_map_of_mem _ hri)

theorem normalize_categoryFilter_witness :
    (normalizeItem hid 0 "UTC" c6Raw).id ∈
      (normalize hid 0 [c6Raw] "UTC" none).map (fun y => y.id) :=
  (normalize_categoryFilter hid 0 "UTC" [c6Raw] none).2 _
    (List.mem_singleton.mpr rfl)

/-- Item A of the spec's merge example (times/coordinates as epoch ms and
exact rationals): title "Jazz Night", start T = 0, (40.0, -73.0), no
description. -/
def jazzRawA : ProviderItem :=
  { baseProvider with
    source := "p1"
    externalId := "a1"
    title := "Jazz Night"
    startTime := some 0
    lat := some 40
    lng := some (-73) }

/-- Item B of the spec's merge example: title "jazz night!!", start
T + 10 min, (40.0005, -73.0004), description "live music". -/
def jazzRawB : ProviderItem :=
  { baseProvider with
    source := "p2"
    externalId := "b2"
    title := "jazz night!!"
    description := some "live music"
    startTime := some 600000
    lat := some (80001/2000)
    lng := some (-(182501/2500)) }

def jazzA : NormalizedItem := normalizeItem hid 0 "UTC" jazzRawA

def jazzB : NormalizedItem := normalizeItem hid 0 "UTC" jazzRawB

/-- Representatives with only the location branch open: titles of
similarity 5/6 (> 0.8, not > 0.9), equal start times, identical
coordinates with latitude 0. -/
def cxA : NormalizedItem :=
  { baseItem with
    normalizedTitle := "aaaaab"
    startTime := some 0
    lat := some 0
    lng := some 10
    id := "A" }

def cxB : NormalizedItem :=
  { cxA with normalizedTitle := "aaaaac", id := "B" }

/-- C1 counterexample: two items that the claim's duplicate rule merges —
title similarity 5/6 > 0.8, start times equal, both carrying coordinates
at haversine distance 0 (identical points, and the stand-in distance
function is 0 there) — but which `dedupe` keeps separate, because the
latitude 0 is falsy and the code's location check therefore fails. -/
theorem dedupe_zeroCoordinate_cex :
    (dedupe dist0 [cxA, cxB]).length = 2
  ∧ (dedupeClaim dist0 [cxA, cxB]).length = 1 := by
  have hsim : stringSimilarity cxB.normalizedTitle cxA.normalizedTitle
      = 1 - (1 : ℚ) / 6 := by
    show stringSimilarity "aaaaac" "aaaaab" = _
    unfold stringSimilarity
    dsimp only
    rw [show (jsTrim (jsToLower "aaaaac".data) == jsTrim (jsToLower "aaaaab".data))
        = false from rfl]
    rw [show ((jsTrim (jsToLower "aaaaac".data)).length == 0 ||
        (jsTrim (jsToLower "aaaaab".data)).length == 0) = false from rfl]
    rw [show levenshteinDistance (jsTrim (jsToLower "aaaaac".data))
        (jsTrim (jsToLower "aaaaab".data)) = 1 from rfl]
    rw [show max (jsTrim (jsToLower "aaaaac".data)).length
        (jsTrim (jsToLower "aaaaab".data)).length = 6 from rfl]
    norm_num
  have hdup : isDuplicate dist0 cxB cxA = false := by
    rw [← Bool.not_eq_true, isDuplicate_iff]
    rintro (⟨h1, _⟩ | ⟨_, hloc, _⟩)
    · rw [hsim] at h1
      norm_num at h1
    · obtain ⟨la1, ln1, la2, ln2, hla1, _, _, _, hne1, _⟩ := hloc
      rw [show cxB.lat = some 0 from rfl] at hla1
      exact hne1 (by injection hla1 with h; exact h.symm)
  have hfind : List.find? (fun u => isDuplicate dist0 cxB u) [cxA] = none := by
    simp only [List.find?_cons, hdup, List.find?_nil]
  have hstep2 : dedupeStep dist0 [cxA] cxB = [cxA, cxB] := by
    unfold dedupeStep
    rw [hfind]
    rfl
  have hd : dedupe dist0 [cxA, cxB] = [cxA, cxB] := by
    show dedupeStep dist0 (dedupeStep dist0 [] cxA) cxB = _
    rw [show dedupeStep dist0 [] cxA = [cxA] from rfl, hstep2]
  have hdupc : isDuplicateClaim dist0 cxB cxA = true := by
    unfold isDuplicateClaim
    rw [hsim]
    rw [decide_eq_false (show ¬(1 - (1:ℚ)/6 > 9/10) by norm_num)]
    rw [decide_eq_true (show (1 - (1:ℚ)/6 > 4/5) by norm_num)]
    rfl
  have hfindc : firstMatchIdx (fun rep => isDuplicateClaim dist0 cxB rep) [cxA]
      = some 0 := by
    simp only [firstMatchIdx, hdupc, if_true]
  have hstepc : dedupeClaimStep dist0 [cxA] cxB = [cxA] := by
    unfold dedupeClaimStep
    rw [hfindc]
    dsimp only
    rw [show ([cxA][0]? : Option NormalizedItem) = some cxA from rfl]
    dsimp only
    rw [show shouldReplaceClaim cxB cxA = false from rfl]
    rfl
  have hdc : dedupeClaim dist0 [cxA, cxB] = [cxA] := by
    show dedupeClaimStep dist0 (dedupeClaimStep dist0 [] cxA) cxB = _
    rw [show dedupeClaimStep dist0 [] cxA = [cxA] from rfl, hstepc]
  exact ⟨by rw [hd]; rfl, by rw [hdc]; rfl⟩

/-- C1 (amended: a field is "present"/"carried" in the JavaScript-truthy
sense — coordinates and popularity must be nonzero, description/image
nonempty): the duplicate test of `dedupe` holds exactly when (title
similarity > 0.90 and start times under 30 minutes apart) or (title
similarity > 0.80 and truthy coordinates under 200 meters apart and start
times under 30 minutes apart); the replacement test holds exactly when the
representative lacks a description and the incoming item has one, or
likewise for images, or the incoming popularity is present and exceeds the
representative's (or the representative has none); `dedupe` equals the
linear scan in which the first matching representative wins and is
replaced in place by the incoming item (keeping the representative's
identifier) exactly when the replacement test holds; and on the section-8
merge example the two items merge into one carrying A's identifier and B's
description. -/
theorem dedupe_characterization (dist : ℚ → ℚ → ℚ → ℚ → ℚ) :
    (∀ incoming rep : NormalizedItem,
      isDuplicate dist incoming rep = true ↔ duplicateRule dist incoming rep)
  ∧ (∀ incoming rep : NormalizedItem,
      shouldReplace incoming rep = true ↔ replacementRule incoming rep)
  ∧ (∀ items : List NormalizedItem, dedupe dist items = dedupeSpec dist items)
  ∧ dedupe dist [jazzA, jazzB] = [{ jazzB with id := jazzA.id }] := by
  refine ⟨fun incoming rep => isDuplicate_iff dist incoming rep,
    fun incoming rep => shouldReplace_iff incoming rep,
    fun items => dedupe_eq_dedupeSpec dist items, ?_⟩
  have hsim : stringSimilarity jazzB.normalizedTitle jazzA.normalizedTitle
      = 1 := rfl
  have hdup : isDuplicate dist jazzB jazzA = true := by
    rw [isDuplicate_iff]
    left
    refine ⟨?_, 600000, 0, rfl, rfl, by decide⟩
    rw [hsim]
    norm_num
  have hrep : shouldReplace jazzB jazzA = true := by
    rw [shouldReplace_iff]
    left
    constructor
    · rintro ⟨s, hs, _⟩
      rw [show jazzA.description = none from rfl] at hs
      exact Option.noConfusion hs
    · exact ⟨"live music", rfl, by decide⟩
  have hfind : List.find? (fun u => isDuplicate dist jazzB u) [jazzA]
      = some jazzA := by
    simp only [List.find?_cons, hdup]
  have hidx : jsIndexOf [jazzA] jazzA = some 0 := by
    simp [jsIndexOf, firstMatchIdx]
  have hstep2 : dedupeStep dist [jazzA] jazzB = [{ jazzB with id := jazzA.id }] := by
    unfold dedupeStep
    rw [hfind]
    dsimp only
    rw [hrep, hidx]
    rfl
  show dedupeStep dist (dedupeStep dist [] jazzA) jazzB = _
  rw [show dedupeStep dist [] jazzA = [jazzA] from rfl, hstep2]

/-- C2: `rank` returns all items — the identifier multiset is unchanged —
each annotated with a score, sorted descending by score-or-0, and within
each score class the output order is the input (scored) order, i.e. ties
retain their relative input order. -/
theorem rank_preserves_and_sorts (dist : ℚ → ℚ → ℚ → ℚ → ℚ) (log10 : ℚ → ℚ)
    (now : Int) (items : List NormalizedItem) (p : RankParams) :
    ((rank dist log10 now items p).map (fun x => x.id)).Perm
      (items.map (fun x => x.id))
  ∧ List.Sorted scoreLE (rank dist log10 now items p)
  ∧ (rank dist log10 now items p).all (fun x => x.score.isSome) = true
  ∧ ∀ v : ℚ,
      (rank dist log10 now items p).filter (fun x => decide (x.score.getD 0 = v)) =
        (items.map (scoreItem dist log10 now p)).filter
          (fun x => decide (x.score.getD 0 = v)) := by
  have hperm : (rank dist log10 now items p).Perm
      (items.map (scoreItem dist log10 now p)) :=
    List.perm_insertionSort scoreLE _
  refine ⟨?_, ?_, ?_, ?_⟩
  · have h2 := hperm.map (fun x => x.id)
    have h3 : (items.map (scoreItem dist log10 now p)).map (fun x => x.id) =
        items.map (fun x => x.id) := by
      rw [List.map_map]
      rw [show ((fun x : NormalizedItem => x.id) ∘ scoreItem dist log10 now p) =
        (fun x : NormalizedItem => x.id) from funext fun x => rfl]
    exact h3 ▸ h2
  · exact List.sorted_insertionSort scoreLE _
  · rw [List.all_eq_true]
    intro x hx
    have hx' := hperm.mem_iff.mp hx
    obtain ⟨y, _, rfl⟩ := List.mem_map.mp hx'
    rfl
  · intro v
    exact filter_insertionSort v _

/-- C10: calling `rank` with strategy closest but no center does not score
by distance or 0: the guard `sortBy === closest && center` fails and
control reaches the default recommended branch, so the result coincides
with ranking under the recommended strategy. -/
theorem rank_closest_without_center (dist : ℚ → ℚ → ℚ → ℚ → ℚ)
    (log10 : ℚ → ℚ) (now : Int) (items : List NormalizedItem) :
    rank dist log10 now items { center := none, sortBy := some .closest } =
      rank dist log10 now items { center := none, sortBy := some .recommended } :=
  rfl

/-- Branch selection of `scoreItem` under `soonest`. -/
theorem scoreItem_soonest (dist : ℚ → ℚ → ℚ → ℚ → ℚ) (log10 : ℚ → ℚ)
    (now : Int) (c : Option (ℚ × ℚ)) (item : NormalizedItem) :
    scoreItem dist log10 now { center := c, sortBy := some .soonest } item
      = { item with score := some (soonestScore now item) } := rfl

/-- Branch selection of `scoreItem` under `closest` with a center. -/
theorem scoreItem_closest (dist : ℚ → ℚ → ℚ → ℚ → ℚ) (log10 : ℚ → ℚ)
    (now : Int) (c : ℚ × ℚ) (item : NormalizedItem) :
    scoreItem dist log10 now { center := some c, sortBy := some .closest } item
      = { item with score := some (closestScore dist c item) } := rfl

/-- Branch selection of `scoreItem` under `recommended`. -/
theorem scoreItem_recommended (dist : ℚ → ℚ → ℚ → ℚ → ℚ) (log10 : ℚ → ℚ)
    (now : Int) (c : Option (ℚ × ℚ)) (item : NormalizedItem) :
    scoreItem dist log10 now { center := c, sortBy := some .recommended } item
      = { item with score := some (recommendedScore dist log10 now c item) } := rfl

/-- An item carrying coordinates with latitude 0. -/
def c7Item : NormalizedItem :=
  { baseItem with lat := some 0, lng := some 10, id := "c7" }

/-- C7 counterexample: under `closest` with a center, an item carrying
coordinates (latitude 0 ∈ [-90, 90], longitude 10) is scored 0, not
`1/(1+d)` (which is nonzero), because latitude 0 is falsy. -/
theorem closest_zeroLat_cex :
    c7Item.lat = some 0 ∧ (-90 : ℚ) ≤ 0 ∧ (0 : ℚ) ≤ 90
  ∧ (rank dist0 log0 0 [c7Item]
      { center := some (40, 10), sortBy := some .closest }).map (fun x => x.score)
      = [some 0]
  ∧ 1 / (1 + dist0 40 10 0 10) ≠ (0 : ℚ) := by
  refine ⟨rfl, by norm_num, by norm_num, rfl, by norm_num [dist0]⟩

/-- C7 (amended: an item is scored by distance only when both coordinates
are truthy, i.e. present and nonzero): under the closest strategy with a
center, `rank` scores every item with nonzero coordinates `1/(1+d)` with
`d` the distance from the center, and every other item — lacking a
coordinate or carrying a zero one — 0. -/
theorem closest_score_characterization (dist : ℚ → ℚ → ℚ → ℚ → ℚ)
    (log10 : ℚ → ℚ) (now : Int) (c : ℚ × ℚ) (items : List NormalizedItem) :
    (∀ item : NormalizedItem,
      (scoreItem dist log10 now { center := some c, sortBy := some .closest }
          item).score
        = some (match item.lat, item.lng with
            | some la, some ln =>
              if la ≠ 0 ∧ ln ≠ 0 then 1 / (1 + dist c.1 c.2 la ln) else 0
            | _, _ => 0))
  ∧ ∀ y ∈ rank dist log10 now items { center := some c, sortBy := some .closest },
      y.score = some (match y.lat, y.lng with
        | some la, some ln =>
          if la ≠ 0 ∧ ln ≠ 0 then 1 / (1 + dist c.1 c.2 la ln) else 0
        | _, _ => 0) := by
  have hmain : ∀ item : NormalizedItem,
      (scoreItem dist log10 now { center := some c, sortBy := some .closest }
          item).score
        = some (match item.lat, item.lng with
            | some la, some ln =>
              if la ≠ 0 ∧ ln ≠ 0 then 1 / (1 + dist c.1 c.2 la ln) else 0
            | _, _ => 0) := by
    intro item
    rw [scoreItem_closest]
    show some (closestScore dist c item) = _
    cases hla : item.lat with
    | none => simp [closestScore, jsNumTruthy, hla]
    | some la =>
      cases hln : item.lng with
      | none => simp [closestScore, jsNumTruthy, hla, hln]
      | some ln =>
        by_cases h1 : la = 0 <;> by_cases h2 : ln = 0 <;>
          simp [closestScore, jsNumTruthy, hla, hln, h1, h2]
  refine ⟨hmain, ?_⟩
  intro y hy
  have hy' : y ∈ items.map
      (scoreItem dist log10 now { center := some c, sortBy := some .closest }) :=
    (List.perm_insertionSort scoreLE _).mem_iff.mp hy
  obtain ⟨x, _, rfl⟩ := List.mem_map.mp hy'
  rw [show (scoreItem dist log10 now
      { center := some c, sortBy := some .closest } x).lat = x.lat from rfl]
  rw [show (scoreItem dist log10 now
      { center := some c, sortBy := some .closest } x).lng = x.lng from rfl]
  exact hmain x

def c7W : NormalizedItem :=
  { baseItem with lat := some 3, lng := some 4, id := "c7w" }

theorem closest_score_characterization_witness :
    (scoreItem dist0 log0 0 { center := some (1, 2), sortBy := some .closest }
        c7W).score
      = some (match c7W.lat, c7W.lng with
          | some la, some ln =>
            if la ≠ 0 ∧ ln ≠ 0 then 1 / (1 + dist0 1 2 la ln) else 0
          | _, _ => 0) :=
  (closest_score_characterization dist0 log0 0 (1, 2) [c7W]).2 _
    (List.mem_singleton.mpr rfl)

def c8Past : NormalizedItem := { baseItem with startTime := some (-2), id := "p" }

def c8Future : NormalizedItem := { baseItem with startTime := some 0, id := "f" }

def pSoon : RankParams := { center := none, sortBy := some .soonest }

/-- C8 counterexample: with `now = 0`, an otherwise-identical pair of items
starting at -2 ms (in the past) and at 0 ms: the soonest scores are
`1/(1-2) = -1` and `1/(1+0) = 1`, so the item starting sooner scores
strictly lower — the claimed monotonicity fails once past start times are
included. -/
theorem soonest_past_cex :
    c8Past.startTime.getD 0 < c8Future.startTime.getD 0
  ∧ (scoreItem dist0 log0 0 pSoon c8Past).score.getD 0
      < (scoreItem dist0 log0 0 pSoon c8Future).score.getD 0 := by
  refine ⟨by decide, ?_⟩
  have h1 : (scoreItem dist0 log0 0 pSoon c8Past).score.getD 0
      = 1 / (1 + (((-2 : Int) - 0 : Int) : ℚ)) := rfl
  have h2 : (scoreItem dist0 log0 0 pSoon c8Future).score.getD 0
      = 1 / (1 + (((0 : Int) - 0 : Int) : ℚ)) := rfl
  rw [h1, h2]
  norm_num

/-- C8 (amended: an item with start time `t`, `t - now ≠ -1` ms, is scored
`1/(1 + (t - now))` (at `t - now = -1` the program divides by zero and the
JS float quotient is `Infinity`, outside the exact-rational model); an item
without a start time is scored 0; and the monotonicity part holds among
items starting at or after `now` — for items starting in the past it fails,
as the counterexample shows. -/
theorem soonest_score_characterization (dist : ℚ → ℚ → ℚ → ℚ → ℚ)
    (log10 : ℚ → ℚ) (now : Int) (c : Option (ℚ × ℚ)) :
    (∀ item : NormalizedItem, ∀ t : Int, item.startTime = some t →
      t - now ≠ -1 →
      (scoreItem dist log10 now { center := c, sortBy := some .soonest }
          item).score
        = some (1 / (1 + ((t : ℚ) - (now : ℚ)))))
  ∧ (∀ item : NormalizedItem, item.startTime = none →
      (scoreItem dist log10 now { center := c, sortBy := some .soonest }
          item).score = some 0)
  ∧ (∀ item₁ item₂ : NormalizedItem, ∀ t₁ t₂ : Int,
      item₁.startTime = some t₁ → item₂.startTime = some t₂ →
      now ≤ t₁ → t₁ ≤ t₂ →
      (scoreItem dist log10 now { center := c, sortBy := some .soonest }
          item₂).score.getD 0
        ≤ (scoreItem dist log10 now { center := c, sortBy := some .soonest }
            item₁).score.getD 0) := by
  refine ⟨?_, ?_, ?_⟩
  · intro item t ht _
    rw [scoreItem_soonest]
    show some (soonestScore now item) = _
    simp only [soonestScore, ht]
    congr 1
    push_cast
    ring
  · intro item ht
    rw [scoreItem_soonest]
    show some (soonestScore now item) = some 0
    simp only [soonestScore, ht]
  · intro item₁ item₂ t₁ t₂ h1 h2 hn h12
    rw [scoreItem_soonest, scoreItem_soonest]
    show soonestScore now item₂ ≤ soonestScore now item₁
    simp only [soonestScore, h1, h2]
    have ha : (0 : ℚ) < 1 + ((t₁ - now : Int) : ℚ) := by
      have hc : (0 : ℚ) ≤ ((t₁ - now : Int) : ℚ) := by
        exact_mod_cast sub_nonneg.mpr hn
      linarith
    have hb : 1 + ((t₁ - now : Int) : ℚ) ≤ 1 + ((t₂ - now : Int) : ℚ) := by
      have hc : ((t₁ - now : Int) : ℚ) ≤ ((t₂ - now : Int) : ℚ) := by
        exact_mod_cast sub_le_sub_right h12 now
      linarith
    exact one_div_le_one_div_of_le ha hb

def c8W1 : NormalizedItem := { baseItem with startTime := some 5, id := "w1" }

def c8W2 : NormalizedItem := { baseItem with startTime := some 9, id := "w2" }

theorem soonest_score_characterization_witness :
    (scoreItem dist0 log0 0 { center := none, sortBy := some .soonest }
        c8W1).score = some (1 / (1 + (((5 : Int) : ℚ) - ((0 : Int) : ℚ))))
  ∧ (scoreItem dist0 log0 0 { center := none, sortBy := some .soonest }
        c8W2).score.getD 0
      ≤ (scoreItem dist0 log0 0 { center := none, sortBy := some .soonest }
          c8W1).score.getD 0 :=
  ⟨(soonest_score_characterization dist0 log0 0 none).1 c8W1 5 rfl (by decide),
   (soonest_score_characterization dist0 log0 0 none).2.2 c8W1 c8W2 5 9 rfl rfl
     (by decide) (by decide)⟩

/-- C9: for two items identical except for their popularity values
`p₁ < p₂`, the recommended score of the more popular item is exactly
`(p₂ - p₁) * 30` larger — the popularity term contributes `popularity × 30`
and no other term differs — hence strictly greater. -/
theorem recommended_popularity_mono (dist : ℚ → ℚ → ℚ → ℚ → ℚ)
    (log10 : ℚ → ℚ) (now : Int) (c : Option (ℚ × ℚ))
    (base : NormalizedItem) (p₁ p₂ : ℚ) (h : p₁ < p₂) :
    ((scoreItem dist log10 now { center := c, sortBy := some .recommended }
        { base with popularity := some p₂ }).score.getD 0
      = (scoreItem dist log10 now { center := c, sortBy := some .recommended }
          { base with popularity := some p₁ }).score.getD 0 + (p₂ - p₁) * 30)
  ∧ (scoreItem dist log10 now { center := c, sortBy := some .recommended }
        { base with popularity := some p₁ }).score.getD 0
      < (scoreItem dist log10 now { center := c, sortBy := some .recommended }
          { base with popularity := some p₂ }).score.getD 0 := by
  have hpop : ∀ q : ℚ, popularityTerm { base with popularity := some q }
      = q * 30 := by
    intro q
    by_cases hq : q = 0
    · simp [popularityTerm, jsNumTruthy, hq]
    · simp [popularityTerm, jsNumTruthy, hq]
  have hsc : ∀ q : ℚ,
      (scoreItem dist log10 now { center := c, sortBy := some .recommended }
        { base with popularity := some q }).score.getD 0
      = q * 30 + (attendeeTerm log10 base + recencyTerm now base +
          proximityTerm dist c base + completenessTerm base +
          categoryTerm base + urgencyTerm now base) := by
    intro q
    rw [scoreItem_recommended]
    show recommendedScore dist log10 now c { base with popularity := some q } = _
    unfold recommendedScore
    rw [hpop]
    rw [show attendeeTerm log10 { base with popularity := some q }
        = attendeeTerm log10 base from rfl]
    rw [show recencyTerm now { base with popularity := some q }
        = recencyTerm now base from rfl]
    rw [show proximityTerm dist c { base with popularity := some q }
        = proximityTerm dist c base from rfl]
    rw [show completenessTerm { base with popularity := some q }
        = completenessTerm base from rfl]
    rw [show categoryTerm { base with popularity := some q }
        = categoryTerm base from rfl]
    rw [show urgencyTerm now { base with popularity := some q }
        = urgencyTerm now base from rfl]
    ring
  constructor
  · rw [hsc, hsc]; ring
  · rw [hsc, hsc]; linarith

theorem recommended_popularity_mono_witness :
    (scoreItem dist0 log0 0 { center := none, sortBy := some .recommended }
        { baseItem with popularity := some (1/5) }).score.getD 0
      < (scoreItem dist0 log0 0 { center := none, sortBy := some .recommended }
          { baseItem with popularity := some (4/5) }).score.getD 0 :=
  (recommended_popularity_mono dist0 log0 0 none baseItem (1/5) (4/5)
    (by norm_num)).2

end Aggregate
